import Mathlib

/-!
Verification of the evidence-chain and incident-analysis core of the
self-defense-strategy repository.

The development shallowly embeds the hash-chained evidence loggers
(`precision.py` `EvidenceChain`, `evidence_logger.py` `EvidenceLogger`,
`zelensky.py` `ZelenskyChain`) and the incident analyzers
(`precision.py` `IncidentTracker.analyze` / `assess_escalation`,
`moral_counterattack.py` `AttackPatternAnalyzer` /
`CounterStrategyOrchestrator`).

Modelling conventions, fixed once here:

* SHA-256 (`hashlib.sha256(...).hexdigest()`) is a library primitive, not
  repository code; it is modelled as an arbitrary function
  `H : String → String` passed to every definition that hashes.  Where a
  claim needs collision-freedom, the theorem hypothesises
  `Function.Injective H`; concrete witnesses instantiate `H` with an
  explicit computable function.
* A chain file is a list of lines.  A line is either blank, or text that
  `json.loads` rejects (`corrupt`), or a parsed record.  The round trip
  `json.loads(json.dumps(d))` on a record written by the code itself is the
  identity, so written records are kept structured.  A `corrupt` line
  carries a `storedHash` string: the code never reads it (an unparseable
  line has no extractable field), but the spec sentence behind claim C4
  speaks of "the broken line's stored hash", so the spec-modelled verifier
  needs it.
* Record fields read with `dict.get` are `Option`-valued in the model.
* `json.dumps(d, sort_keys=True)` (default separators `", "` / `": "`,
  `ensure_ascii=True`) is embedded concretely for the fixed record shapes
  the code serializes; `data` / `platform` sub-dicts are restricted to
  string values, which is all the modelled call sites produce.
* Python float arithmetic on small-integer severities is modelled as exact
  integer cross-multiplication (e.g. `a/b > (c/d)*1.2` becomes
  `5*a*d > 6*c*b`), and float constants such as `0.8` are carried as
  integer tenths.
-/

namespace SelfDefense

/-! ## JSON serialization primitives (`json.dumps`, sort_keys=True,
default separators, ensure_ascii=True) -/

/-- Lowercase hex digit, as produced by Python's `\uXXXX` escapes. -/
def hexDigitChar (n : Nat) : Char :=
  if n < 10 then Char.ofNat (48 + n) else Char.ofNat (87 + n)

/-- Four lowercase hex digits of `n < 0x10000`. -/
def hex4 (n : Nat) : String :=
  ⟨[hexDigitChar (n / 4096 % 16), hexDigitChar (n / 256 % 16),
    hexDigitChar (n / 16 % 16), hexDigitChar (n % 16)]⟩

/-- Python `json` non-ASCII escape: `\uXXXX`, with a surrogate pair for
code points above the BMP. -/
def uEscape (c : Char) : String :=
  let n := c.toNat
  if n < 0x10000 then "\\u" ++ hex4 n
  else
    let m := n - 0x10000
    "\\u" ++ hex4 (0xd800 + m / 0x400) ++ "\\u" ++ hex4 (0xdc00 + m % 0x400)

/-- Escaping of one character inside a JSON string literal, following
`json.dumps` with `ensure_ascii=True`. -/
def jsonEscapeChar (c : Char) : String :=
  if c = '"' then "\\\""
  else if c = '\\' then "\\\\"
  else if c = '\n' then "\\n"
  else if c = '\r' then "\\r"
  else if c = '\t' then "\\t"
  else if c = '\x08' then "\\b"
  else if c = '\x0c' then "\\f"
  else if c.toNat < 0x20 || 0x7f ≤ c.toNat then uEscape c
  else String.singleton c

/-- Body of a JSON string literal: each character escaped. -/
def escBody (s : String) : String :=
  ⟨s.data.flatMap (fun c => (jsonEscapeChar c).data)⟩

/-- A JSON string literal: quote, escaped body, quote. -/
def jsonStr (s : String) : String :=
  "\"" ++ escBody s ++ "\""

/-- Printable ASCII other than quote and backslash: exactly the characters
`jsonEscapeChar` passes through unchanged. -/
def safeChar (c : Char) : Bool :=
  c ≠ '"' && c ≠ '\\' && 0x20 ≤ c.toNat && c.toNat < 0x7f

/-- A string all of whose characters are `safeChar`. -/
def safeString (s : String) : Bool :=
  s.data.all safeChar

/-- Python string comparison: lexicographic on code points. -/
def strLtAux : List Char → List Char → Bool
  | [], [] => false
  | [], _ :: _ => true
  | _ :: _, [] => false
  | a :: as, b :: bs =>
    if a.toNat < b.toNat then true
    else if b.toNat < a.toNat then false
    else strLtAux as bs

def strLt (a b : String) : Bool := strLtAux a.data b.data

/-- Stable insertion of a key-value pair into a key-sorted list
(`sorted` over dict items, which have unique keys). -/
def insertByKey {α : Type} (p : String × α) : List (String × α) → List (String × α)
  | [] => [p]
  | q :: rest => if strLt p.1 q.1 then p :: q :: rest else q :: insertByKey p rest

/-- Sort an association list by key: the `sort_keys=True` order. -/
def sortByKey {α : Type} : List (String × α) → List (String × α)
  | [] => []
  | p :: rest => insertByKey p (sortByKey rest)

/-- `sep.join(items)`. -/
def joinSep (sep : String) : List String → String
  | [] => ""
  | [s] => s
  | s :: rest => s ++ sep ++ joinSep sep rest

/-- `json.dumps` of a string-valued dict with `sort_keys=True` and the
default separators `", "` and `": "`. -/
def dumpsDict (kvs : List (String × String)) : String :=
  "\x7b" ++ joinSep ", "
    ((sortByKey kvs).map (fun kv => jsonStr kv.1 ++ ": " ++ jsonStr kv.2)) ++ "\x7d"

/-- The JSON values the modelled call sites serialize: strings and
string-valued dicts. -/
inductive JVal : Type
  | str (s : String)
  | obj (kvs : List (String × String))
deriving DecidableEq

def dumpsVal : JVal → String
  | JVal.str s => jsonStr s
  | JVal.obj kvs => dumpsDict kvs

/-- `json.dumps` of a record with `sort_keys=True`, default separators. -/
def dumpsObj (kvs : List (String × JVal)) : String :=
  "\x7b" ++ joinSep ", "
    ((sortByKey kvs).map (fun kv => jsonStr kv.1 ++ ": " ++ dumpsVal kv.2)) ++ "\x7d"

/-! ## `precision.py` — `EvidenceChain` -/

namespace Precision

/-- A parsed chain-file record; `prev_hash` / `hash` mirror `dict.get`
(`none` = key absent).  `data` is restricted to string values. -/
structure PEntry : Type where
  timestamp : String
  category : String
  description : String
  data : List (String × String)
  prev_hash : Option String
  hash : Option String
deriving DecidableEq

/-- One line of `chain.jsonl`. -/
inductive PLine : Type
  | blank
  | corrupt (storedHash : String)
  | entry (e : PEntry)
deriving DecidableEq

def pIsBlank : PLine → Bool
  | PLine.blank => true
  | _ => false

/-- `hashlib.sha256(b"GENESIS").hexdigest()`. -/
def pGenesis (H : String → String) : String := H "GENESIS"

/-- `json.dumps(entry, sort_keys=True)` for the dict built by `append`
(insertion order: timestamp, category, description, data, prev_hash). -/
def pContent (ts cat desc : String) (data : List (String × String)) (prev : String) : String :=
  dumpsObj [("timestamp", JVal.str ts), ("category", JVal.str cat),
            ("description", JVal.str desc), ("data", JVal.obj data),
            ("prev_hash", JVal.str prev)]

/-- `EvidenceChain._last_hash`: genesis for an absent/empty file, else the
`hash` field (default `""`) of the last non-blank line; `none` models the
`json.JSONDecodeError` raised when that line does not parse. -/
def pLastHash (H : String → String) (lines : List PLine) : Option String :=
  match (lines.filter (fun l => !pIsBlank l)).getLast? with
  | none => some (pGenesis H)
  | some (PLine.entry e) => some (e.hash.getD "")
  | some (PLine.corrupt _) => none
  | some PLine.blank => none

/-- `EvidenceChain.append`: build the entry with `prev_hash` from
`_last_hash`, hash the sorted-keys dump, append one line. -/
def pAppend (H : String → String) (ts cat desc : String)
    (data : List (String × String)) (lines : List PLine) : Option (List PLine) :=
  match pLastHash H lines with
  | none => none
  | some prev =>
    let h := H (pContent ts cat desc data prev)
    some (lines ++ [PLine.entry ⟨ts, cat, desc, data, some prev, some h⟩])

/-- Verification divergences; each constructor stands for the
corresponding `f"Line {i}: ..."` string the code appends. -/
inductive VErr : Type
  | chainBreak (line : Nat)
  | invalidJSON (line : Nat)
deriving DecidableEq

/-- The scan loop of `EvidenceChain.verify`: `i` is the 1-based line
number (`enumerate(f, 1)` counts blank lines too), `prev` the expected
previous hash. -/
def pVerifyAux (H : String → String) : Nat → String → List PLine → List VErr
  | _, _, [] => []
  | i, prev, PLine.blank :: rest => pVerifyAux H (i + 1) prev rest
  | i, prev, PLine.corrupt _ :: rest => VErr.invalidJSON i :: pVerifyAux H (i + 1) prev rest
  | i, prev, PLine.entry e :: rest =>
    (if e.prev_hash ≠ some prev then [VErr.chainBreak i] else [])
      ++ pVerifyAux H (i + 1) (e.hash.getD prev) rest

/-- `EvidenceChain.verify`: `(len(errors) == 0, errors)`; an absent file
(modelled, like an empty one, as `[]`) is valid. -/
def pVerify (H : String → String) (lines : List PLine) : Bool × List VErr :=
  let errs := pVerifyAux H 1 (pGenesis H) lines
  (errs.isEmpty, errs)

/-- `EvidenceChain.count`: the number of non-blank lines. -/
def pCount (lines : List PLine) : Nat :=
  lines.countP (fun l => !pIsBlank l)

/-- The expected-previous hash carried through a scan of `lines`
starting from `prev` (`prev = entry.get("hash", prev)`; corrupt and blank
lines leave it unchanged). -/
def pCarry : List PLine → String → String
  | [], prev => prev
  | PLine.blank :: rest, prev => pCarry rest prev
  | PLine.corrupt _ :: rest, prev => pCarry rest prev
  | PLine.entry e :: rest, prev => pCarry rest (e.hash.getD prev)

/-- In-place tamper: replace the `description` of the record on line `k`
(0-based) after it was written, leaving every other byte of the file and
all hash fields unchanged. -/
def pFlip (d' : String) : Nat → List PLine → List PLine
  | _, [] => []
  | 0, PLine.entry e :: rest => PLine.entry { e with description := d' } :: rest
  | 0, l :: rest => l :: rest
  | k + 1, l :: rest => l :: pFlip d' k rest

/-- One `append` input: timestamp, category, description, data. -/
def PInput : Type := String × String × String × List (String × String)

/-- A sequence of `append` calls starting from an absent chain file. -/
def pBuild (H : String → String) (inputs : List PInput) : Option (List PLine) :=
  inputs.foldl
    (fun acc inp => acc.bind (fun ls => pAppend H inp.1 inp.2.1 inp.2.2.1 inp.2.2.2 ls))
    (some [])

end Precision

/-! ## `evidence_logger.py` — `EvidenceLogger` -/

namespace Logger

/-- The `entry_data` dict hashed by `log_entry` (insertion order:
timestamp, category, description, data, platform).  The modelled calls
pass `attachments=None`, so the optional `attachments` key (file-hashing
I/O) is absent. -/
structure EntryData : Type where
  timestamp : String
  category : String
  description : String
  data : List (String × String)
  platform : List (String × String)
deriving DecidableEq

/-- `json.dumps(data, sort_keys=True)` for an `entry_data` dict. -/
def eContent (d : EntryData) : String :=
  dumpsObj [("timestamp", JVal.str d.timestamp), ("category", JVal.str d.category),
            ("description", JVal.str d.description), ("data", JVal.obj d.data),
            ("platform", JVal.obj d.platform)]

/-- `EvidenceLogger._compute_hash`: hash of the sorted-keys dump
concatenated with the previous hash. -/
def compute_hash (H : String → String) (d : EntryData) (prev : String) : String :=
  H (eContent d ++ prev)

/-- A parsed line of `evidence_chain.jsonl`: the `prev_hash` / `entry_hash`
fields (`dict.get`, so `Option`) plus the hashed payload. -/
structure EEntry : Type where
  prev_hash : Option String
  entry_hash : Option String
  data : EntryData
deriving DecidableEq

inductive ELine : Type
  | blank
  | corrupt (storedHash : String)
  | entry (e : EEntry)
deriving DecidableEq

/-- `hashlib.sha256(b"GENESIS").hexdigest()`. -/
def eGenesis (H : String → String) : String := H "GENESIS"

/-- The logger's in-memory state: the rolling `last_hash` cursor and the
chain file.  A fresh logger over an absent file is
`⟨eGenesis H, []⟩`. -/
structure LoggerState : Type where
  last_hash : String
  lines : List ELine
deriving DecidableEq

/-- `EvidenceLogger.log_entry` (with `attachments=None`): hash the entry
data chained to the cursor, append the full record, advance the cursor. -/
def log_entry (H : String → String) (d : EntryData) (s : LoggerState) :
    EEntry × LoggerState :=
  let entry_hash := compute_hash H d s.last_hash
  let e : EEntry := ⟨some s.last_hash, some entry_hash, d⟩
  (e, ⟨entry_hash, s.lines ++ [ELine.entry e]⟩)

/-- Verification divergences of `verify_chain`; constructors stand for the
`Invalid JSON`, `Chain break` and `Hash mismatch` strings. -/
inductive EVErr : Type
  | invalidJSON (line : Nat)
  | chainBreak (line : Nat)
  | tamper (line : Nat)
deriving DecidableEq

/-- The scan loop of `EvidenceLogger.verify_chain`: per parsed line, first
the `prev_hash` link check, then the recomputed-hash check (over the
reconstructed `entry_data` and the line's own `prev_hash` field, default
`""`), then `prev_hash = entry.get("entry_hash", prev_hash)`.  A line that
fails to parse records one error and is skipped (`continue`). -/
def eVerifyAux (H : String → String) : Nat → String → List ELine → List EVErr
  | _, _, [] => []
  | i, prev, ELine.blank :: rest => eVerifyAux H (i + 1) prev rest
  | i, prev, ELine.corrupt _ :: rest => EVErr.invalidJSON i :: eVerifyAux H (i + 1) prev rest
  | i, prev, ELine.entry e :: rest =>
    (if e.prev_hash ≠ some prev then [EVErr.chainBreak i] else [])
      ++ (if e.entry_hash ≠ some (H (eContent e.data ++ e.prev_hash.getD "")) then
            [EVErr.tamper i]
          else [])
      ++ eVerifyAux H (i + 1) (e.entry_hash.getD prev) rest

/-- `EvidenceLogger.verify_chain`: `(len(errors) == 0, errors)`; an absent
file is valid. -/
def verify_chain (H : String → String) (lines : List ELine) : Bool × List EVErr :=
  let errs := eVerifyAux H 1 (eGenesis H) lines
  (errs.isEmpty, errs)

/-- The expected-previous hash carried through the scan. -/
def eCarry : List ELine → String → String
  | [], prev => prev
  | ELine.blank :: rest, prev => eCarry rest prev
  | ELine.corrupt _ :: rest, prev => eCarry rest prev
  | ELine.entry e :: rest, prev => eCarry rest (e.entry_hash.getD prev)

/-- In-place tamper: replace the `description` of the record on line `k`,
leaving all other fields (including the stored hashes) unchanged. -/
def eFlip (d' : String) : Nat → List ELine → List ELine
  | _, [] => []
  | 0, ELine.entry e :: rest =>
    ELine.entry { e with data := { e.data with description := d' } } :: rest
  | 0, l :: rest => l :: rest
  | k + 1, l :: rest => l :: eFlip d' k rest

/-- The `description` of the record on line `k`, if line `k` is a parsed
record. -/
def descAt : List ELine → Nat → Option String
  | [], _ => none
  | ELine.entry e :: _, 0 => some e.data.description
  | _ :: _, 0 => none
  | _ :: rest, k + 1 => descAt rest k

/-- A chain file as produced by a sequence of `log_entry` appends with no
external modification: every line is a record whose `prev_hash` field is
the running cursor and whose `entry_hash` is the recomputed chained
hash. -/
def eWellChained (H : String → String) : String → List ELine → Bool
  | _, [] => true
  | prev, ELine.entry e :: rest =>
    e.prev_hash == some prev && e.entry_hash == some (H (eContent e.data ++ prev))
      && eWellChained H (H (eContent e.data ++ prev)) rest
  | _, _ :: _ => false

/-- A sequence of `log_entry` calls on a fresh logger over an absent
file.  `platform.*` values are fixed for the process, so one `platform`
dict is shared by all entries. -/
def eBuild (H : String → String) (plat : List (String × String))
    (inputs : List (String × String × String × List (String × String))) : LoggerState :=
  inputs.foldl
    (fun s inp => (log_entry H ⟨inp.1, inp.2.1, inp.2.2.1, inp.2.2.2, plat⟩ s).2)
    ⟨eGenesis H, []⟩

/-- Everything of a dumped `entry_data` that precedes the escaped
description. -/
def eContPre (cat : String) (data : List (String × String)) : String :=
  "\x7b" ++ jsonStr "category" ++ ": " ++ jsonStr cat ++ ", "
    ++ jsonStr "data" ++ ": " ++ dumpsDict data ++ ", "
    ++ jsonStr "description" ++ ": "

/-- Everything of a dumped `entry_data` that follows the escaped
description. -/
def eContPost (plat : List (String × String)) (ts : String) : String :=
  ", " ++ jsonStr "platform" ++ ": " ++ dumpsDict plat ++ ", "
    ++ jsonStr "timestamp" ++ ": " ++ jsonStr ts ++ "\x7d"

end Logger

/-! ## `zelensky.py` — `ZelenskyChain` -/

namespace Zelensky

/-- A parsed line of the zelensky chain file; only the fields `verify`
reads are relevant, but the full record shape is kept. -/
structure ZEntry : Type where
  timestamp : String
  category : String
  content : String
  prev_hash : Option String
  hash : Option String
deriving DecidableEq

inductive ZLine : Type
  | blank
  | corrupt (storedHash : String)
  | entry (e : ZEntry)
deriving DecidableEq

def zIsBlank : ZLine → Bool
  | ZLine.blank => true
  | _ => false

/-- `ZelenskyChain._genesis`. -/
def zGenesis (H : String → String) : String := H "ZELENSKY_PROTOCOL_2025-02-28"

/-- Verification divergences; constructors stand for the `CHAIN BREAK -
evidence tampered` and `CORRUPT` strings. -/
inductive ZErr : Type
  | chainBreak (line : Nat)
  | corruptRecord (line : Nat)
deriving DecidableEq

/-- The scan loop of `ZelenskyChain.verify`: link check then
`expected_prev = e.get("hash", expected_prev)`; a line that fails to parse
records one error, and — the `json.loads` call being the first statement
of the `try` block — leaves `expected_prev` untouched. -/
def zVerifyAux (H : String → String) : Nat → String → List ZLine → List ZErr
  | _, _, [] => []
  | i, prev, ZLine.blank :: rest => zVerifyAux H (i + 1) prev rest
  | i, prev, ZLine.corrupt _ :: rest => ZErr.corruptRecord i :: zVerifyAux H (i + 1) prev rest
  | i, prev, ZLine.entry e :: rest =>
    (if e.prev_hash ≠ some prev then [ZErr.chainBreak i] else [])
      ++ zVerifyAux H (i + 1) (e.hash.getD prev) rest

/-- `ZelenskyChain.verify`. -/
def zVerify (H : String → String) (lines : List ZLine) : Bool × List ZErr :=
  let errs := zVerifyAux H 1 (zGenesis H) lines
  (errs.isEmpty, errs)

/-- `ZelenskyChain.count`: the number of non-blank lines. -/
def zCount (lines : List ZLine) : Nat :=
  lines.countP (fun l => !zIsBlank l)

/-- Modelled from the spec: the verifier the spec sentence behind claim C4
describes — on a line with malformed encoding, record a `CorruptRecord`
error and "treat the broken line's stored hash as the new
expected-previous for continued scanning".  Identical to `zVerifyAux`
except that the corrupt branch threads the broken line's `storedHash`
instead of leaving `prev` unchanged. -/
def zSpecVerifyAux (H : String → String) : Nat → String → List ZLine → List ZErr
  | _, _, [] => []
  | i, prev, ZLine.blank :: rest => zSpecVerifyAux H (i + 1) prev rest
  | i, _, ZLine.corrupt h :: rest => ZErr.corruptRecord i :: zSpecVerifyAux H (i + 1) h rest
  | i, prev, ZLine.entry e :: rest =>
    (if e.prev_hash ≠ some prev then [ZErr.chainBreak i] else [])
      ++ zSpecVerifyAux H (i + 1) (e.hash.getD prev) rest

end Zelensky

/-! ## Shared numeric modelling -/

/-- Exact-rational rendering of the float comparison
`sum(recent)/len(recent) > sum(early)/len(early) * (mnum/mden)`:
cross-multiplied, valid whenever both windows are non-empty. -/
def meanExceeds (recent early : List Int) (mnum mden : Int) : Bool :=
  decide (mden * recent.sum * (early.length : Int) > mnum * early.sum * (recent.length : Int))

/-- `defaultdict(int)` bump with insertion order: increment the key's
count, appending the key on first sight. -/
def bump {α : Type} [DecidableEq α] : List (α × Nat) → α → List (α × Nat)
  | [], k => [(k, 1)]
  | (a, n) :: rest, k => if a = k then (a, n + 1) :: rest else (a, n) :: bump rest k

/-! ## `precision.py` — `IncidentTracker.analyze` and `assess_escalation` -/

namespace PrecisionIncidents

/-- `precision.py`'s `Incident` dataclass. -/
structure Incident : Type where
  timestamp : String
  vector : String
  description : String
  severity : Int
  hash : String
deriving DecidableEq

/-- The dict returned by `IncidentTracker.analyze` for a non-empty
collection.  `escalating` is the float comparison
`sum(recent)/3 > sum(early)/3` in exact form. -/
structure Analysis : Type where
  total : Nat
  vectors : List (String × Nat)
  escalating : Bool
  sophistication : String
  multi_vector : Bool
deriving DecidableEq

/-- `IncidentTracker.analyze`; `none` models the
`{"total": 0, "message": "No incidents recorded"}` early return. -/
def analyze (incs : List Incident) : Option Analysis :=
  if incs.isEmpty then none
  else
    let vectors := incs.foldl (fun acc i => bump acc i.vector) []
    let sevs := incs.map (fun i => i.severity)
    let escalating :=
      if incs.length ≥ 3 then
        meanExceeds (sevs.drop (sevs.length - 3)) (sevs.take 3) 1 1
      else false
    let level :=
      if vectors.length ≥ 5 || incs.length > 10 then "HIGH"
      else if vectors.length ≥ 3 then "MEDIUM"
      else "LOW"
    some ⟨incs.length, vectors, escalating, level, vectors.length ≥ 3⟩

/-- `ESCALATION_LADDER`: level number, name, action. -/
def ESCALATION_LADDER : List (Nat × String × String) :=
  [(1, "DOCUMENTATION", "Hash-chained logs, forensic captures"),
   (2, "FORMAL COMPLAINT", "HR, regulatory bodies, platforms"),
   (3, "LAW ENFORCEMENT", "Police reports, FBI if federal"),
   (4, "PROTECTIVE ORDERS", "Restraining orders, TRO"),
   (5, "CIVIL LITIGATION", "Damages, discovery, injunction"),
   (6, "FEDERAL ACTION", "Civil rights, Congressional notification")]

/-- The dict returned by `assess_escalation`. -/
structure Position : Type where
  current_level : Nat
  level_name : String
  recommended_action : String
  incident_count : Nat
deriving DecidableEq

/-- `assess_escalation`: the sequential level updates of the source. -/
def assess_escalation (incs : List Incident) : Position :=
  let n := incs.length
  let level := 1
  let level := if n ≥ 3 then 2 else level
  let level := if n ≥ 5 then 3 else level
  let level := if incs.any (fun i => i.severity ≥ 8) then max level 4 else level
  let level := if n ≥ 10 then max level 5 else level
  let row := ESCALATION_LADDER.getD (level - 1) (0, "", "")
  ⟨level, row.2.1, row.2.2, n⟩

/-- Stated from the spec's words, for comparison with the source: the
level is the highest level whose threshold condition is met, each
threshold evaluated independently (count ≥ 3 → 2, count ≥ 5 → 3, any
severity ≥ 8 → 4, count ≥ 10 → 5, floor 1). -/
def specHighestLevel (incs : List Incident) : Nat :=
  max (max (max (max 1 (if incs.length ≥ 3 then 2 else 1))
    (if incs.length ≥ 5 then 3 else 1))
    (if incs.any (fun i => i.severity ≥ 8) then 4 else 1))
    (if incs.length ≥ 10 then 5 else 1)

end PrecisionIncidents

/-! ## `moral_counterattack.py` — `AttackPatternAnalyzer` and the
orchestrator -/

namespace Moral

/-- `AttackVector` enum. -/
inductive AttackVector : Type
  | SURVEILLANCE | HARASSMENT | REPUTATION | GASLIGHTING | ISOLATION
  | ECONOMIC | LEGAL_ABUSE | TECHNOLOGICAL | PSYCHOLOGICAL | INSTITUTIONAL
  | PROXY_HARASSMENT | INFORMATION_WARFARE
deriving DecidableEq

def AttackVector.vname : AttackVector → String
  | AttackVector.SURVEILLANCE => "SURVEILLANCE"
  | AttackVector.HARASSMENT => "HARASSMENT"
  | AttackVector.REPUTATION => "REPUTATION"
  | AttackVector.GASLIGHTING => "GASLIGHTING"
  | AttackVector.ISOLATION => "ISOLATION"
  | AttackVector.ECONOMIC => "ECONOMIC"
  | AttackVector.LEGAL_ABUSE => "LEGAL_ABUSE"
  | AttackVector.TECHNOLOGICAL => "TECHNOLOGICAL"
  | AttackVector.PSYCHOLOGICAL => "PSYCHOLOGICAL"
  | AttackVector.INSTITUTIONAL => "INSTITUTIONAL"
  | AttackVector.PROXY_HARASSMENT => "PROXY_HARASSMENT"
  | AttackVector.INFORMATION_WARFARE => "INFORMATION_WARFARE"

/-- `AttackIncident` dataclass. -/
structure AttackIncident : Type where
  timestamp : String
  vector : AttackVector
  description : String
  perpetrators : List String
  witnesses : List String
  evidence_refs : List String
  severity : Int
  psychological_impact : String
  documented : Bool
  reported_to : List String
deriving DecidableEq

/-- The dict built by `analyze_temporal_patterns` for a non-empty
collection.  `datetime.fromisoformat` / `strftime("%A")` are library
calls, abstracted as the deterministic parameter `parseTs` returning
`(hour, day-of-week name)` or `none` for the `except ... continue`
branch.  `frequency_trend` and `cluster_periods` keep their initial
values — the code never updates them. -/
structure TemporalPatterns : Type where
  by_hour : List (Nat × Nat)
  by_day_of_week : List (String × Nat)
  escalation_detected : Bool
  frequency_trend : String
  cluster_periods : List String
deriving DecidableEq

/-- `AttackPatternAnalyzer.analyze_temporal_patterns`; `none` models the
`{"error": "No incidents to analyze"}` early return.  Escalation needs at
least 3 incidents and compares the float means of `incidents[-5:]` and
`incidents[:5]` against the 1.2 multiplier, rendered exactly as 6/5. -/
def analyze_temporal_patterns (parseTs : String → Option (Nat × String))
    (incs : List AttackIncident) : Option TemporalPatterns :=
  if incs.isEmpty then none
  else
    let by_hour := incs.foldl
      (fun acc i => match parseTs i.timestamp with
        | some hd => bump acc hd.1
        | none => acc) []
    let by_day := incs.foldl
      (fun acc i => match parseTs i.timestamp with
        | some hd => bump acc hd.2
        | none => acc) []
    let sevs := incs.map (fun i => i.severity)
    let esc :=
      if incs.length ≥ 3 then
        meanExceeds (sevs.drop (sevs.length - 5)) (sevs.take 5) 6 5
      else false
    some ⟨by_hour, by_day, esc, "unknown", []⟩

/-- One entry of `average_severity_by_vector`: the float `sum/len` is
carried exactly as the pair (severity sum, count). -/
structure VectorPatterns : Type where
  vector_frequency : List (String × Nat)
  primary_vector : Option String
  average_severity_by_vector : List (String × (Int × Nat))
  multi_vector_attack : Bool
  coordinated_campaign_indicators : List String
deriving DecidableEq

/-- `max(vector_counts, key=vector_counts.get)`: the first key with the
maximal count, in insertion order (Python's `max` keeps the earliest of
equals). -/
def argmaxFirst : List (String × Nat) → Option String
  | [] => none
  | (k, v) :: rest =>
    some (rest.foldl (fun best kv => if kv.2 > best.2 then kv else best) (k, v)).1

/-- `vector_severity[name].append(severity)` over a `defaultdict(list)`,
kept as (sum, count). -/
def addSeverity : List (String × (Int × Nat)) → String → Int → List (String × (Int × Nat))
  | [], k, s => [(k, (s, 1))]
  | (a, p) :: rest, k, s =>
    if a = k then (a, (p.1 + s, p.2 + 1)) :: rest else (a, p) :: addSeverity rest k s

/-- `AttackPatternAnalyzer._detect_coordination`. -/
def detect_coordination (incs : List AttackIncident) : List String :=
  let vector_diversity := (incs.map (fun i => i.vector)).dedup.length
  let all_perps := (incs.flatMap (fun i => i.perpetrators)).dedup
  let proxy_count := (incs.filter (fun i => i.vector = AttackVector.PROXY_HARASSMENT)).length
  let inst := incs.any (fun i => i.vector = AttackVector.INSTITUTIONAL)
  (if vector_diversity ≥ 4 then ["Multiple attack vectors suggest coordinated campaign"] else [])
    ++ (if all_perps.length ≥ 3 then
          ["Multiple perpetrators identified (" ++ toString all_perps.length ++ ")"]
        else [])
    ++ (if proxy_count ≥ 2 then ["Proxy harassment pattern detected - using third parties"] else [])
    ++ (if inst then ["Institutional channels being weaponized"] else [])

/-- `AttackPatternAnalyzer.analyze_vector_patterns`; `none` models the
empty-collection error dict. -/
def analyze_vector_patterns (incs : List AttackIncident) : Option VectorPatterns :=
  if incs.isEmpty then none
  else
    let counts := incs.foldl (fun acc i => bump acc i.vector.vname) []
    let sevByVector := incs.foldl (fun acc i => addSeverity acc i.vector.vname i.severity) []
    some ⟨counts, argmaxFirst counts, sevByVector, counts.length > 3, detect_coordination incs⟩

/-- An actor entry of `identify_perpetrator_network`; `vectors_used` is
`list(set)`, modelled as the first-occurrence-ordered distinct list. -/
structure Actor : Type where
  name : String
  incident_count : Nat
  vectors_used : List String
deriving DecidableEq

structure Network : Type where
  primary_actors : List Actor
  secondary_actors : List Actor
  institutional_actors : List Actor
  connections : List String
deriving DecidableEq

/-- `perpetrator_vectors[perp].add(vector_name)`. -/
def addVectorUsed : List (String × List String) → String → String → List (String × List String)
  | [], k, v => [(k, [v])]
  | (a, vs) :: rest, k, v =>
    if a = k then (a, if v ∈ vs then vs else vs ++ [v]) :: rest
    else (a, vs) :: addVectorUsed rest k v

/-- `AttackPatternAnalyzer.identify_perpetrator_network`.
`institutional_actors` and `connections` keep their initial empty
values — the code never fills them. -/
def identify_perpetrator_network (incs : List AttackIncident) : Network :=
  let freq := incs.foldl (fun acc i => i.perpetrators.foldl bump acc) []
  let vecs := incs.foldl
    (fun acc i => i.perpetrators.foldl (fun a p => addVectorUsed a p i.vector.vname) acc) []
  let actors := freq.map (fun kv =>
    let used := ((vecs.find? (fun pv => pv.1 = kv.1)).map (fun pv => pv.2)).getD []
    Actor.mk kv.1 kv.2 used)
  ⟨actors.filter (fun a => a.incident_count ≥ 3 || a.vectors_used.length ≥ 2),
   actors.filter (fun a => ¬ (a.incident_count ≥ 3 || a.vectors_used.length ≥ 2)),
   [], []⟩

/-- A prediction of `predict_next_vectors`; the float confidences 0.8,
0.7, 0.6 are carried as integer tenths. -/
structure Prediction : Type where
  vector : String
  confidence_tenths : Nat
  reasoning : String
  recommended_preparation : String
deriving DecidableEq

/-- Count of a vector in `vector_analysis.get("vector_frequency", {})`
(0 when the analysis is the empty-collection error dict or the vector is
absent). -/
def freqOf (va : Option VectorPatterns) (name : String) : Nat :=
  match va with
  | none => 0
  | some v => (((v.vector_frequency.find? (fun kv => kv.1 = name)).map
      (fun kv => kv.2)).getD 0)

/-- `AttackPatternAnalyzer.predict_next_vectors`: three independent rules,
in source order; all firing rules contribute. -/
def predict_next_vectors (parseTs : String → Option (Nat × String))
    (incs : List AttackIncident) : List Prediction :=
  let va := analyze_vector_patterns incs
  let ta := analyze_temporal_patterns parseTs incs
  let escFlag := match ta with
    | some t => t.escalation_detected
    | none => false
  (if escFlag then
      [⟨"ESCALATION_LIKELY", 8, "Pattern shows increasing severity over time",
        "Document everything, notify authorities, strengthen support network"⟩]
    else [])
    ++ (if freqOf va "HARASSMENT" > 2 && freqOf va "ISOLATION" = 0 then
          [⟨"ISOLATION", 7, "Harassment campaigns often escalate to isolation tactics",
            "Strengthen support network, document relationships"⟩]
        else [])
    ++ (if freqOf va "REPUTATION" > 1 then
          [⟨"INSTITUTIONAL", 6, "Reputation attacks often precede attempts to weaponize institutions",
            "Prepare counter-narrative documentation, gather character witnesses"⟩]
        else [])

structure Campaign : Type where
  sophistication_score : Nat
  level : String
  contributing_factors : List String
deriving DecidableEq

/-- `AttackPatternAnalyzer._assess_campaign_sophistication`: fixed point
weights, then the first matching inclusive band in source order. -/
def assess_campaign_sophistication (incs : List AttackIncident) : Campaign :=
  let vectors_used := (incs.map (fun i => i.vector)).dedup.length
  let s1 : Nat := if vectors_used ≥ 5 then 3 else if vectors_used ≥ 3 then 2 else 0
  let f1 := if vectors_used ≥ 5 then ["High vector diversity indicates sophisticated campaign"]
    else if vectors_used ≥ 3 then ["Moderate vector diversity"] else []
  let instit := incs.any (fun i => i.vector = AttackVector.INSTITUTIONAL)
  let proxy := incs.any (fun i => i.vector = AttackVector.PROXY_HARASSMENT)
  let infowar := incs.any (fun i => i.vector = AttackVector.INFORMATION_WARFARE)
  let score := s1 + (if instit then 2 else 0) + (if proxy then 2 else 0)
    + (if infowar then 2 else 0)
  let factors := f1 ++ (if instit then ["Institutional channels weaponized"] else [])
    ++ (if proxy then ["Third-party proxies used"] else [])
    ++ (if infowar then ["Information warfare tactics detected"] else [])
  let level :=
    if score ≤ 2 then "LOW - Opportunistic harassment"
    else if score ≤ 5 then "MEDIUM - Organized harassment campaign"
    else if score ≤ 8 then "HIGH - Sophisticated coordinated campaign"
    else if score ≤ 12 then "SEVERE - Professional-grade targeting operation"
    else "UNKNOWN"
  ⟨score, level, factors⟩

/-- The dict returned by `generate_pattern_report`.  `generated_at` is
`datetime.now(timezone.utc).isoformat()` — the wall-clock time of the
call, passed in explicitly as `now`. -/
structure PatternReport : Type where
  generated_at : String
  total_incidents : Nat
  temporal_patterns : Option TemporalPatterns
  vector_patterns : Option VectorPatterns
  perpetrator_network : Network
  predictions : List Prediction
  campaign_assessment : Campaign
deriving DecidableEq

/-- `AttackPatternAnalyzer.generate_pattern_report`. -/
def generate_pattern_report (parseTs : String → Option (Nat × String))
    (now : String) (incs : List AttackIncident) : PatternReport :=
  ⟨now, incs.length, analyze_temporal_patterns parseTs incs,
   analyze_vector_patterns incs, identify_perpetrator_network incs,
   predict_next_vectors parseTs incs, assess_campaign_sophistication incs⟩

/-- Everything `generate_pattern_report` returns except `generated_at`. -/
def reportBody (r : PatternReport) :
    Nat × Option TemporalPatterns × Option VectorPatterns × Network
      × List Prediction × Campaign :=
  (r.total_incidents, r.temporal_patterns, r.vector_patterns,
   r.perpetrator_network, r.predictions, r.campaign_assessment)

/-- The orchestrator state that `load_incidents` mutates: its own
`incidents` list and the `pattern_analyzer`'s `incidents` list (fed one
by one through `add_incident`). -/
structure OrchState : Type where
  incidents : List AttackIncident
  analyzerIncidents : List AttackIncident
deriving DecidableEq

/-- `CounterStrategyOrchestrator.load_incidents` with snapshot-file
content `fileData`: for each loaded item, append it to `self.incidents`
and feed it to `self.pattern_analyzer.add_incident` — nothing is cleared
first.  A missing file is `fileData = []`. -/
def load_incidents (fileData : List AttackIncident) (s : OrchState) : OrchState :=
  fileData.foldl
    (fun st inc => ⟨st.incidents ++ [inc], st.analyzerIncidents ++ [inc]⟩) s

end Moral

/-! ## Spec-modelled comparison definitions and concrete demo data -/

namespace Precision

/-- Modelled from the spec: the `count()` the spec describes — only lines
that parse as a record object carrying a `hash` field are counted. -/
def pClaimCount (lines : List PLine) : Nat :=
  (lines.filter (fun l => match l with
    | PLine.entry e => e.hash.isSome
    | _ => false)).length

end Precision

/-- Modelled from the spec: canonical dict encoding with sorted keys and
no insignificant whitespace (separators `","` and `":"`). -/
def specDumpsDictNoWS (kvs : List (String × String)) : String :=
  "\x7b" ++ joinSep ","
    ((sortByKey kvs).map (fun kv => jsonStr kv.1 ++ ":" ++ jsonStr kv.2)) ++ "\x7d"

/-- Modelled from the spec: the canonical no-whitespace encoding of a
`precision.py` entry minus its `hash` field (keys category, data,
description, prev_hash, timestamp, in sorted order). -/
def specCanonicalNoWS (ts cat desc : String) (data : List (String × String))
    (prev : String) : String :=
  "\x7b" ++ jsonStr "category" ++ ":" ++ jsonStr cat ++ ","
    ++ jsonStr "data" ++ ":" ++ specDumpsDictNoWS data ++ ","
    ++ jsonStr "description" ++ ":" ++ jsonStr desc ++ ","
    ++ jsonStr "prev_hash" ++ ":" ++ jsonStr prev ++ ","
    ++ jsonStr "timestamp" ++ ":" ++ jsonStr ts ++ "\x7d"

/-- Modelled from the spec: the SHA-256 input the spec prescribes — the
canonical no-whitespace encoding of the entry minus `hash`, concatenated
with the raw `prev_hash` hex string. -/
def specHashInput (ts cat desc : String) (data : List (String × String))
    (prev : String) : String :=
  specCanonicalNoWS ts cat desc data prev ++ prev

/-- Modelled from the spec: the same prescription for an
`evidence_logger.py` record minus its hash field (keys category, data,
description, platform, prev_hash, timestamp, in sorted order,
no whitespace), concatenated with the raw `prev_hash` hex string. -/
def specHashInputLogger (d : Logger.EntryData) (prev : String) : String :=
  ("\x7b" ++ jsonStr "category" ++ ":" ++ jsonStr d.category ++ ","
    ++ jsonStr "data" ++ ":" ++ specDumpsDictNoWS d.data ++ ","
    ++ jsonStr "description" ++ ":" ++ jsonStr d.description ++ ","
    ++ jsonStr "platform" ++ ":" ++ specDumpsDictNoWS d.platform ++ ","
    ++ jsonStr "prev_hash" ++ ":" ++ jsonStr prev ++ ","
    ++ jsonStr "timestamp" ++ ":" ++ jsonStr d.timestamp ++ "\x7d") ++ prev

namespace PrecisionIncidents

/-- A `precision.py` incident with the fields the analyzers read. -/
def mkInc (v : String) (s : Int) : Incident := ⟨"", v, "", s, ""⟩

/-- The spec's worked example: severities 3,3,3,9,9,9 in order. -/
def sixDemo : List Incident :=
  [mkInc "HARASSMENT" 3, mkInc "HARASSMENT" 3, mkInc "SURVEILLANCE" 3,
   mkInc "REPUTATION" 9, mkInc "ECONOMIC" 9, mkInc "GASLIGHTING" 9]

/-- `n` low-severity incidents. -/
def lowDemo (n : Nat) : List Incident := List.replicate n (mkInc "HARASSMENT" 3)

end PrecisionIncidents

namespace Moral

/-- A `moral_counterattack.py` incident with the fields the analyzers
read. -/
def mkInc (v : AttackVector) (s : Int) : AttackIncident :=
  ⟨"", v, "", [], [], [], s, "", true, []⟩

/-- The spec's worked example: severities 3,3,3,9,9,9 across two
HARASSMENT and four other-vector entries. -/
def sixDemo : List AttackIncident :=
  [mkInc AttackVector.HARASSMENT 3, mkInc AttackVector.HARASSMENT 3,
   mkInc AttackVector.SURVEILLANCE 3, mkInc AttackVector.REPUTATION 9,
   mkInc AttackVector.ECONOMIC 9, mkInc AttackVector.GASLIGHTING 9]

end Moral

namespace Zelensky

/-- A file whose first line is unparseable (its `storedHash` is what the
spec would thread) and whose second line is a record correctly linked to
the genesis digest. -/
def c4demo : List ZLine :=
  [ZLine.corrupt "X",
   ZLine.entry ⟨"t", "obs", "x", some "ZELENSKY_PROTOCOL_2025-02-28", some "h2"⟩]

end Zelensky

namespace Logger

/-- A one-entry chain as written by `log_entry` under the identity hash
model. -/
def c1demo : List ELine :=
  [ELine.entry ⟨some "GENESIS",
    some (eContent ⟨"t1", "obs", "hello", [], []⟩ ++ "GENESIS"),
    ⟨"t1", "obs", "hello", [], []⟩⟩]

end Logger

/-! ## String and escaping helper lemmas -/

lemma str_ext {s t : String} (h : s.data = t.data) : s = t := by
  cases s; cases t; simp_all

lemma str_data_append (s t : String) : (s ++ t).data = s.data ++ t.data :=
  String.data_append s t

lemma strAppend_cancel_right {a b s : String} (h : a ++ s = b ++ s) : a = b := by
  have h2 : (a ++ s).data = (b ++ s).data := by rw [h]
  simp only [str_data_append] at h2
  exact str_ext (List.append_cancel_right h2)

lemma strAffix_cancel {p a b s : String} (h : p ++ a ++ s = p ++ b ++ s) : a = b := by
  have h2 : (p ++ a ++ s).data = (p ++ b ++ s).data := by rw [h]
  simp only [str_data_append, List.append_assoc] at h2
  exact str_ext (List.append_cancel_right (List.append_cancel_left h2))

lemma singleton_data (c : Char) : (String.singleton c).data = [c] := rfl

lemma jsonEscapeChar_safe {c : Char} (h : safeChar c = true) :
    jsonEscapeChar c = String.singleton c := by
  simp only [safeChar, Bool.and_eq_true, decide_eq_true_eq] at h
  unfold jsonEscapeChar
  split_ifs with a1 a2 a3 a4 a5 a6 a7 a8
  · exact absurd a1 h.1.1.1
  · exact absurd a2 h.1.1.2
  · subst a3; exact absurd h.1.2 (by decide)
  · subst a4; exact absurd h.1.2 (by decide)
  · subst a5; exact absurd h.1.2 (by decide)
  · subst a6; exact absurd h.1.2 (by decide)
  · subst a7; exact absurd h.1.2 (by decide)
  · rw [Bool.or_eq_true, decide_eq_true_eq, decide_eq_true_eq] at a8
    obtain ⟨⟨⟨h1, h2⟩, h3⟩, h4⟩ := h
    omega
  · rfl

lemma flatMap_escape_safe {l : List Char} (h : ∀ c ∈ l, safeChar c = true) :
    l.flatMap (fun c => (jsonEscapeChar c).data) = l := by
  induction l with
  | nil => rfl
  | cons c t ih =>
    rw [List.flatMap_cons, jsonEscapeChar_safe (h c (by simp)), singleton_data,
      ih (fun x hx => h x (by simp [hx]))]
    rfl

lemma escBody_safe {s : String} (h : safeString s = true) : escBody s = s := by
  unfold escBody
  rw [flatMap_escape_safe (fun c hc => List.all_eq_true.mp h c hc)]

lemma jsonStr_safe {s : String} (h : safeString s = true) :
    jsonStr s = "\"" ++ s ++ "\"" := by
  unfold jsonStr
  rw [escBody_safe h]

lemma jsonStr_inj_safe {a b : String} (ha : safeString a = true) (hb : safeString b = true)
    (h : jsonStr a = jsonStr b) : a = b := by
  rw [jsonStr_safe ha, jsonStr_safe hb] at h
  exact strAffix_cancel h

/-! ## Serialization shape lemmas -/

/-- `sort_keys=True` puts the five keys of a `precision.py` entry dict in
lexicographic order. -/
lemma sort5_precision (a b c d e : JVal) :
    sortByKey [("timestamp", a), ("category", b), ("description", c),
               ("data", d), ("prev_hash", e)]
      = [("category", b), ("data", d), ("description", c),
         ("prev_hash", e), ("timestamp", a)] := rfl

/-- `sort_keys=True` puts the five keys of an `entry_data` dict in
lexicographic order. -/
lemma sort5_logger (a b c d e : JVal) :
    sortByKey [("timestamp", a), ("category", b), ("description", c),
               ("data", d), ("platform", e)]
      = [("category", b), ("data", d), ("description", c),
         ("platform", e), ("timestamp", a)] := rfl

namespace Logger

lemma eContent_decomp (d : EntryData) :
    eContent d
      = eContPre d.category d.data ++ jsonStr d.description
          ++ eContPost d.platform d.timestamp := by
  apply str_ext
  rw [eContent, dumpsObj, sort5_logger]
  simp [joinSep, dumpsVal, eContPre, eContPost, str_data_append, List.append_assoc]

lemma eContent_inj_desc {ts cat : String} {da pl : List (String × String)} {d d' : String}
    (hd : safeString d = true) (hd' : safeString d' = true)
    (h : eContent ⟨ts, cat, d, da, pl⟩ = eContent ⟨ts, cat, d', da, pl⟩) : d = d' := by
  rw [eContent_decomp, eContent_decomp] at h
  exact jsonStr_inj_safe hd hd' (strAffix_cancel h)

/-- A well-chained file verifies with no errors, whatever the starting
line number. -/
lemma eVerifyAux_of_wellChained {H : String → String} :
    ∀ {lines : List ELine} {prev : String}, eWellChained H prev lines = true →
      ∀ i, eVerifyAux H i prev lines = [] := by
  intro lines
  induction lines with
  | nil => intro prev _ i; rfl
  | cons l rest ih =>
    intro prev h i
    cases l with
    | blank => simp [eWellChained] at h
    | corrupt s => simp [eWellChained] at h
    | entry e =>
      simp only [eWellChained, Bool.and_eq_true, beq_iff_eq] at h
      obtain ⟨⟨h1, h2⟩, h3⟩ := h
      simp [eVerifyAux, h1, h2, ih h3]

/-- The expected-previous hash distributes over list append. -/
lemma eCarry_append : ∀ (l₁ l₂ : List ELine) (prev : String),
    eCarry (l₁ ++ l₂) prev = eCarry l₂ (eCarry l₁ prev) := by
  intro l₁
  induction l₁ with
  | nil => intros; rfl
  | cons l rest ih => intro l₂ prev; cases l <;> simp [eCarry, ih]

/-- `verify_chain`'s scan decomposes over any split of the file: errors of
the first part, then errors of the second part scanned from the carried
line number and expected-previous hash.  No divergence stops the scan. -/
lemma eVerifyAux_append (H : String → String) :
    ∀ (l₁ l₂ : List ELine) (i : Nat) (prev : String),
      eVerifyAux H i prev (l₁ ++ l₂)
        = eVerifyAux H i prev l₁
            ++ eVerifyAux H (i + l₁.length) (eCarry l₁ prev) l₂ := by
  intro l₁
  induction l₁ with
  | nil => intro l₂ i prev; rw [List.nil_append, eVerifyAux]; rfl
  | cons l rest ih =>
    intro l₂ i prev
    cases l with
    | blank =>
      show eVerifyAux H (i + 1) prev (rest ++ l₂)
        = eVerifyAux H (i + 1) prev rest
            ++ eVerifyAux H (i + (rest.length + 1)) (eCarry rest prev) l₂
      rw [show i + (rest.length + 1) = (i + 1) + rest.length from by omega]
      exact ih l₂ (i + 1) prev
    | corrupt s =>
      show EVErr.invalidJSON i :: eVerifyAux H (i + 1) prev (rest ++ l₂)
        = EVErr.invalidJSON i :: (eVerifyAux H (i + 1) prev rest
            ++ eVerifyAux H (i + (rest.length + 1)) (eCarry rest prev) l₂)
      rw [show i + (rest.length + 1) = (i + 1) + rest.length from by omega, ih]
    | entry e =>
      show ((if e.prev_hash ≠ some prev then [EVErr.chainBreak i] else [])
            ++ (if e.entry_hash ≠ some (H (eContent e.data ++ e.prev_hash.getD "")) then
                  [EVErr.tamper i]
                else []))
            ++ eVerifyAux H (i + 1) (e.entry_hash.getD prev) (rest ++ l₂)
        = (((if e.prev_hash ≠ some prev then [EVErr.chainBreak i] else [])
            ++ (if e.entry_hash ≠ some (H (eContent e.data ++ e.prev_hash.getD "")) then
                  [EVErr.tamper i]
                else []))
            ++ eVerifyAux H (i + 1) (e.entry_hash.getD prev) rest)
            ++ eVerifyAux H (i + (rest.length + 1))
                (eCarry rest (e.entry_hash.getD prev)) l₂
      rw [show i + (rest.length + 1) = (i + 1) + rest.length from by omega, ih]
      simp only [List.append_assoc]

end Logger

namespace Precision

/-- The expected-previous hash distributes over list append. -/
lemma pCarry_append : ∀ (l₁ l₂ : List PLine) (prev : String),
    pCarry (l₁ ++ l₂) prev = pCarry l₂ (pCarry l₁ prev) := by
  intro l₁
  induction l₁ with
  | nil => intros; rfl
  | cons l rest ih => intro l₂ prev; cases l <;> simp [pCarry, ih]

/-- `EvidenceChain.verify`'s scan decomposes over any split of the file:
no divergence stops the scan. -/
lemma pVerifyAux_append (H : String → String) :
    ∀ (l₁ l₂ : List PLine) (i : Nat) (prev : String),
      pVerifyAux H i prev (l₁ ++ l₂)
        = pVerifyAux H i prev l₁
            ++ pVerifyAux H (i + l₁.length) (pCarry l₁ prev) l₂ := by
  intro l₁
  induction l₁ with
  | nil => intro l₂ i prev; rw [List.nil_append, pVerifyAux]; rfl
  | cons l rest ih =>
    intro l₂ i prev
    cases l with
    | blank =>
      show pVerifyAux H (i + 1) prev (rest ++ l₂)
        = pVerifyAux H (i + 1) prev rest
            ++ pVerifyAux H (i + (rest.length + 1)) (pCarry rest prev) l₂
      rw [show i + (rest.length + 1) = (i + 1) + rest.length from by omega]
      exact ih l₂ (i + 1) prev
    | corrupt s =>
      show VErr.invalidJSON i :: pVerifyAux H (i + 1) prev (rest ++ l₂)
        = VErr.invalidJSON i :: (pVerifyAux H (i + 1) prev rest
            ++ pVerifyAux H (i + (rest.length + 1)) (pCarry rest prev) l₂)
      rw [show i + (rest.length + 1) = (i + 1) + rest.length from by omega, ih]
    | entry e =>
      show (if e.prev_hash ≠ some prev then [VErr.chainBreak i] else [])
            ++ pVerifyAux H (i + 1) (e.hash.getD prev) (rest ++ l₂)
        = ((if e.prev_hash ≠ some prev then [VErr.chainBreak i] else [])
            ++ pVerifyAux H (i + 1) (e.hash.getD prev) rest)
            ++ pVerifyAux H (i + (rest.length + 1)) (pCarry rest (e.hash.getD prev)) l₂
      rw [show i + (rest.length + 1) = (i + 1) + rest.length from by omega, ih,
        List.append_assoc]

/-- `_last_hash` of a file ending in a parsed record is that record's
`hash` field (default `""`). -/
lemma pLastHash_snoc (H : String → String) (lines : List PLine) (e : PEntry) :
    pLastHash H (lines ++ [PLine.entry e]) = some (e.hash.getD "") := by
  unfold pLastHash
  rw [List.filter_append,
    show List.filter (fun l => !pIsBlank l) [PLine.entry e] = [PLine.entry e] from rfl,
    List.getLast?_concat]

/-- After a sequence of `append` calls on an absent chain file, the build
succeeds, the scan is error-free, and `_last_hash` agrees with the
carried expected-previous hash. -/
lemma pBuild_invariant (H : String → String) (inputs : List PInput) :
    ∃ lines, pBuild H inputs = some lines
      ∧ pVerifyAux H 1 (pGenesis H) lines = []
      ∧ pLastHash H lines = some (pCarry lines (pGenesis H)) := by
  induction inputs using List.reverseRecOn with
  | nil => exact ⟨[], rfl, rfl, rfl⟩
  | append_singleton l x ih =>
    obtain ⟨lines, hb, hv, hl⟩ := ih
    have hstep : pBuild H (l ++ [x])
        = (pBuild H l).bind (fun ls => pAppend H x.1 x.2.1 x.2.2.1 x.2.2.2 ls) := by
      unfold pBuild
      rw [List.foldl_append]
      rfl
    set prev := pCarry lines (pGenesis H) with hprev
    set e : PEntry := ⟨x.1, x.2.1, x.2.2.1, x.2.2.2, some prev,
      some (H (pContent x.1 x.2.1 x.2.2.1 x.2.2.2 prev))⟩ with he
    refine ⟨lines ++ [PLine.entry e], ?_, ?_, ?_⟩
    · rw [hstep, hb]
      show pAppend H x.1 x.2.1 x.2.2.1 x.2.2.2 lines = some (lines ++ [PLine.entry e])
      unfold pAppend
      rw [hl]
    · rw [pVerifyAux_append, hv]
      simp [pVerifyAux, he]
    · rw [pLastHash_snoc, pCarry_append]
      simp [pCarry, he]

/-- A flipped description is invisible to `EvidenceChain.verify`: the
scan reads only `prev_hash` and `hash`. -/
lemma pVerifyAux_flip (H : String → String) :
    ∀ (lines : List PLine) (k : Nat) (d' : String) (i : Nat) (prev : String),
      pVerifyAux H i prev (pFlip d' k lines) = pVerifyAux H i prev lines := by
  intro lines
  induction lines with
  | nil => intro k d' i prev; cases k <;> rfl
  | cons l rest ih =>
    intro k d' i prev
    cases k with
    | zero => cases l <;> simp [pFlip, pVerifyAux]
    | succ k' => cases l <;> simp [pFlip, pVerifyAux, ih]

end Precision

namespace PrecisionIncidents

/-- The sequential level updates of `assess_escalation` compute the
highest independently-met threshold. -/
lemma assess_level_eq (incs : List Incident) :
    (assess_escalation incs).current_level = specHighestLevel incs := by
  simp only [assess_escalation, specHighestLevel]
  split_ifs <;> omega

end PrecisionIncidents

namespace Moral

/-- The `load_incidents` loop appends the whole file content to both
collections. -/
lemma load_incidents_eq (d : List AttackIncident) :
    ∀ s : OrchState,
      load_incidents d s = ⟨s.incidents ++ d, s.analyzerIncidents ++ d⟩ := by
  induction d with
  | nil => intro s; simp [load_incidents]
  | cons a t ih =>
    intro s
    show load_incidents t ⟨s.incidents ++ [a], s.analyzerIncidents ++ [a]⟩ = _
    rw [ih]
    simp

end Moral

namespace Logger

/-- Membership of an element in a conditional singleton. -/
lemma mem_ite_singleton {α : Type} {x y : α} {c : Prop} [Decidable c] :
    x ∈ (if c then [y] else []) ↔ c ∧ x = y := by
  split <;> simp_all

/-- `verify_chain` records a `Hash mismatch` error for a line exactly when
that line parses and the hash recomputed over its fields and its own
`prev_hash` field differs from its stored `entry_hash` — independent of
everything else in the file. -/
lemma tamper_mem_iff (H : String → String) :
    ∀ (lines : List ELine) (i j : Nat) (prev : String),
      EVErr.tamper j ∈ eVerifyAux H i prev lines
        ↔ ∃ k e, lines[k]? = some (ELine.entry e) ∧ j = i + k
            ∧ e.entry_hash ≠ some (H (eContent e.data ++ e.prev_hash.getD "")) := by
  intro lines
  induction lines with
  | nil => intro i j prev; simp [eVerifyAux]
  | cons l rest ih =>
    intro i j prev
    cases l with
    | blank =>
      rw [show eVerifyAux H i prev (ELine.blank :: rest)
            = eVerifyAux H (i + 1) prev rest from rfl, ih]
      constructor
      · rintro ⟨k, e, hget, hj, hne⟩
        exact ⟨k + 1, e, by simpa using hget, by omega, hne⟩
      · rintro ⟨k, e, hget, hj, hne⟩
        cases k with
        | zero => simp at hget
        | succ k' => exact ⟨k', e, by simpa using hget, by omega, hne⟩
    | corrupt s =>
      rw [show eVerifyAux H i prev (ELine.corrupt s :: rest)
            = EVErr.invalidJSON i :: eVerifyAux H (i + 1) prev rest from rfl]
      rw [List.mem_cons, ih]
      constructor
      · rintro (hcon | ⟨k, e, hget, hj, hne⟩)
        · exact absurd hcon (by simp)
        · exact ⟨k + 1, e, by simpa using hget, by omega, hne⟩
      · rintro ⟨k, e, hget, hj, hne⟩
        cases k with
        | zero => simp at hget
        | succ k' => exact Or.inr ⟨k', e, by simpa using hget, by omega, hne⟩
    | entry e =>
      rw [show eVerifyAux H i prev (ELine.entry e :: rest)
            = (if e.prev_hash ≠ some prev then [EVErr.chainBreak i] else [])
                ++ (if e.entry_hash ≠ some (H (eContent e.data ++ e.prev_hash.getD "")) then
                      [EVErr.tamper i]
                    else [])
                ++ eVerifyAux H (i + 1) (e.entry_hash.getD prev) rest from rfl]
      rw [List.append_assoc, List.mem_append, List.mem_append, mem_ite_singleton,
        mem_ite_singleton, ih]
      constructor
      · rintro (⟨_, hcon⟩ | ⟨hc, heq⟩ | ⟨k, e', hget, hj, hne⟩)
        · exact absurd hcon (by simp)
        · injection heq with heq'
          exact ⟨0, e, by simp, by omega, hc⟩
        · exact ⟨k + 1, e', by simpa using hget, by omega, hne⟩
      · rintro ⟨k, e', hget, hj, hne⟩
        cases k with
        | zero =>
          simp only [List.getElem?_cons_zero, Option.some.injEq, ELine.entry.injEq] at hget
          subst hget
          exact Or.inr (Or.inl ⟨hne, by rw [show j = i from by omega]⟩)
        | succ k' =>
          exact Or.inr (Or.inr ⟨k', e', by simpa using hget, by omega, hne⟩)

/-- Flipping the description of line `k` of a well-chained file makes
exactly that line's recomputed hash diverge: the whole error list is the
single `Hash mismatch` for line `i + k`.  Needs collision-freedom of the
hash (injectivity) and descriptions that JSON-escape to themselves. -/
lemma eFlip_verify {H : String → String} (hinj : Function.Injective H) :
    ∀ (lines : List ELine) (k : Nat) (i : Nat) (prev d d' : String),
      eWellChained H prev lines = true → descAt lines k = some d →
      safeString d = true → safeString d' = true → d ≠ d' →
      eVerifyAux H i prev (eFlip d' k lines) = [EVErr.tamper (i + k)] := by
  intro lines
  induction lines with
  | nil =>
    intro k i prev d d' _ hdesc
    cases k <;> simp [descAt] at hdesc
  | cons l rest ih =>
    intro k i prev d d' hwc hdesc hs hs' hne
    cases l with
    | blank => simp [eWellChained] at hwc
    | corrupt s => simp [eWellChained] at hwc
    | entry e =>
      obtain ⟨eph, eeh, ⟨ets, ecat, edesc, eda, epl⟩⟩ := e
      simp only [eWellChained, Bool.and_eq_true, beq_iff_eq] at hwc
      obtain ⟨⟨h1, h2⟩, h3⟩ := hwc
      cases k with
      | zero =>
        simp only [descAt, Option.some.injEq] at hdesc
        subst hdesc
        have htam : some (H (eContent ⟨ets, ecat, edesc, eda, epl⟩ ++ prev))
            ≠ some (H (eContent ⟨ets, ecat, d', eda, epl⟩ ++ prev)) := by
          intro hcon
          exact hne (eContent_inj_desc hs hs'
            (strAppend_cancel_right (hinj (Option.some.inj hcon))))
        show (if eph ≠ some prev then [EVErr.chainBreak i] else [])
              ++ (if eeh ≠ some (H (eContent ⟨ets, ecat, d', eda, epl⟩ ++ eph.getD "")) then
                    [EVErr.tamper i]
                  else [])
              ++ eVerifyAux H (i + 1) (eeh.getD prev) rest = [EVErr.tamper (i + 0)]
        rw [h1, h2]
        simp [eVerifyAux_of_wellChained h3, htam]
      | succ k' =>
        simp only [descAt] at hdesc
        have harr := ih k' (i + 1) (H (eContent ⟨ets, ecat, edesc, eda, epl⟩ ++ prev))
          d d' h3 hdesc hs hs' hne
        show (if eph ≠ some prev then [EVErr.chainBreak i] else [])
              ++ (if eeh ≠ some (H (eContent ⟨ets, ecat, edesc, eda, epl⟩ ++ eph.getD "")) then
                    [EVErr.tamper i]
                  else [])
              ++ eVerifyAux H (i + 1) (eeh.getD prev) (eFlip d' k' rest)
            = [EVErr.tamper (i + (k' + 1))]
        rw [h1, h2]
        simp [harr]
        omega

/-- After a sequence of `log_entry` calls on a fresh logger the file is
error-free under `verify_chain`'s scan and the cursor equals the carried
expected-previous hash. -/
lemma eBuild_invariant (H : String → String) (plat : List (String × String))
    (inputs : List (String × String × String × List (String × String))) :
    eVerifyAux H 1 (eGenesis H) (eBuild H plat inputs).lines = []
      ∧ eCarry (eBuild H plat inputs).lines (eGenesis H) = (eBuild H plat inputs).last_hash := by
  induction inputs using List.reverseRecOn with
  | nil => exact ⟨rfl, rfl⟩
  | append_singleton l x ih =>
    obtain ⟨hv, hc⟩ := ih
    have hstep : eBuild H plat (l ++ [x])
        = (log_entry H ⟨x.1, x.2.1, x.2.2.1, x.2.2.2, plat⟩ (eBuild H plat l)).2 := by
      unfold eBuild
      rw [List.foldl_append]
      rfl
    set s := eBuild H plat l with hs
    set d : EntryData := ⟨x.1, x.2.1, x.2.2.1, x.2.2.2, plat⟩ with hd
    have hlines : (eBuild H plat (l ++ [x])).lines
        = s.lines ++ [ELine.entry ⟨some s.last_hash, some (H (eContent d ++ s.last_hash)), d⟩] := by
      rw [hstep]; rfl
    have hlast : (eBuild H plat (l ++ [x])).last_hash = H (eContent d ++ s.last_hash) := by
      rw [hstep]; rfl
    constructor
    · rw [hlines, eVerifyAux_append, hv, hc]
      show [] ++ ((if some s.last_hash ≠ some s.last_hash then [EVErr.chainBreak _] else [])
        ++ (if some (H (eContent d ++ s.last_hash))
              ≠ some (H (eContent d ++ (some s.last_hash).getD "")) then
              [EVErr.tamper _]
            else [])
        ++ []) = []
      simp
    · rw [hlines, hlast, eCarry_append, hc]
      rfl

end Logger

/-! ## Claim theorems -/

/-- C1 (counterexample): in `precision.py`, flipping one character of a
persisted entry's description (`hello` → `hellp`, hash fields untouched)
leaves `EvidenceChain.verify` fully silent: it returns `(true, [])` and
reports no `TamperDetected` error at all, because it never recomputes a
hash.  Hash model: the identity function. -/
theorem C1_counterexample :
    Precision.pBuild (fun s => s) [("t1", "obs", "hello", [])]
        = some [Precision.PLine.entry ⟨"t1", "obs", "hello", [], some "GENESIS",
            some (Precision.pContent "t1" "obs" "hello" [] "GENESIS")⟩]
      ∧ Precision.pFlip "hellp" 0
            [Precision.PLine.entry ⟨"t1", "obs", "hello", [], some "GENESIS",
              some (Precision.pContent "t1" "obs" "hello" [] "GENESIS")⟩]
          = [Precision.PLine.entry ⟨"t1", "obs", "hellp", [], some "GENESIS",
              some (Precision.pContent "t1" "obs" "hello" [] "GENESIS")⟩]
      ∧ Precision.pVerify (fun s => s)
            [Precision.PLine.entry ⟨"t1", "obs", "hellp", [], some "GENESIS",
              some (Precision.pContent "t1" "obs" "hello" [] "GENESIS")⟩]
          = (true, []) :=
  ⟨rfl, rfl, rfl⟩

/-- C1 (amended): description flips are invisible to
`EvidenceChain.verify` in `precision.py` (its output is unchanged by any
flip); in `evidence_logger.py`, `verify_chain` records a `TamperDetected`
error for a line exactly when the recomputed hash differs from the stored
`entry_hash`, and flipping the description of line `k` of a well-chained
file (collision-free hash, descriptions that escape to themselves) makes
the error list exactly `[TamperDetected (k+1)]` — every other line's
status is unchanged. -/
theorem C1_tamper_detection :
    (∀ (H : String → String) (lines : List Precision.PLine) (k : Nat) (d' : String),
        Precision.pVerify H (Precision.pFlip d' k lines) = Precision.pVerify H lines)
    ∧ (∀ (H : String → String) (lines : List Logger.ELine) (i j : Nat) (prev : String),
        Logger.EVErr.tamper j ∈ Logger.eVerifyAux H i prev lines
          ↔ ∃ k e, lines[k]? = some (Logger.ELine.entry e) ∧ j = i + k
              ∧ e.entry_hash ≠ some (H (Logger.eContent e.data ++ e.prev_hash.getD "")))
    ∧ (∀ H : String → String, Function.Injective H →
        ∀ (lines : List Logger.ELine) (k : Nat) (d d' : String),
          Logger.eWellChained H (Logger.eGenesis H) lines = true →
          Logger.descAt lines k = some d →
          safeString d = true → safeString d' = true → d ≠ d' →
          Logger.verify_chain H (Logger.eFlip d' k lines)
            = (false, [Logger.EVErr.tamper (k + 1)])) := by
  refine ⟨?_, ?_, ?_⟩
  · intro H lines k d'
    unfold Precision.pVerify
    rw [Precision.pVerifyAux_flip]
  · exact Logger.tamper_mem_iff
  · intro H hinj lines k d d' hwc hdesc hs hs' hne
    unfold Logger.verify_chain
    rw [Logger.eFlip_verify hinj lines k 1 (Logger.eGenesis H) d d' hwc hdesc hs hs' hne,
      show 1 + k = k + 1 from by omega]
    rfl

/-- C1 (witness): a concrete instance of the amended flip property — a
one-entry well-chained file under the identity hash model, description
flipped from `hello` to `hellp`, yields exactly the line-1 tamper
error. -/
theorem C1_tamper_detection_witness :
    Logger.verify_chain (fun s => s) (Logger.eFlip "hellp" 0 Logger.c1demo)
      = (false, [Logger.EVErr.tamper 1]) :=
  C1_tamper_detection.2.2 (fun s => s) (fun _ _ h => h) Logger.c1demo 0 "hello" "hellp"
    (by decide) (by decide) (by decide) (by decide) (by decide)

/-- C2: starting from an absent or empty chain file, any finite sequence
of `append` / `log_entry` calls with no external modification leaves a
chain on which `verify()` returns `(true, [])`, in both `precision.py`
and `evidence_logger.py`. -/
theorem C2_append_verify_clean :
    (∀ (H : String → String) (inputs : List Precision.PInput),
        ∃ lines, Precision.pBuild H inputs = some lines
          ∧ Precision.pVerify H lines = (true, []))
    ∧ (∀ (H : String → String) (plat : List (String × String))
          (inputs : List (String × String × String × List (String × String))),
        Logger.verify_chain H (Logger.eBuild H plat inputs).lines = (true, [])) := by
  constructor
  · intro H inputs
    obtain ⟨lines, hb, hv, _⟩ := Precision.pBuild_invariant H inputs
    refine ⟨lines, hb, ?_⟩
    unfold Precision.pVerify
    rw [hv]
    rfl
  · intro H plat inputs
    unfold Logger.verify_chain
    rw [(Logger.eBuild_invariant H plat inputs).1]
    rfl

/-- C3: verification never halts early.  An absent or empty chain file
verifies as `(true, [])`, and the scan of any file decomposes over every
split: the errors of the tail are produced whatever divergences the head
contains, so one pass reports the complete ordered error list. -/
theorem C3_full_scan :
    (∀ H : String → String, Precision.pVerify H [] = (true, []))
    ∧ (∀ H : String → String, Logger.verify_chain H [] = (true, []))
    ∧ (∀ (H : String → String) (l₁ l₂ : List Precision.PLine) (i : Nat) (prev : String),
        Precision.pVerifyAux H i prev (l₁ ++ l₂)
          = Precision.pVerifyAux H i prev l₁
              ++ Precision.pVerifyAux H (i + l₁.length) (Precision.pCarry l₁ prev) l₂)
    ∧ (∀ (H : String → String) (l₁ l₂ : List Logger.ELine) (i : Nat) (prev : String),
        Logger.eVerifyAux H i prev (l₁ ++ l₂)
          = Logger.eVerifyAux H i prev l₁
              ++ Logger.eVerifyAux H (i + l₁.length) (Logger.eCarry l₁ prev) l₂) :=
  ⟨fun _ => rfl, fun _ => rfl, Precision.pVerifyAux_append, Logger.eVerifyAux_append⟩

/-- C4 (counterexample): the code's verifier and the spec's prescription
("the broken line's stored hash becomes the new expected-previous")
disagree.  On a file whose first line is unparseable (attributed stored
hash `"X"`) and whose second record links to genesis,
`ZelenskyChain.verify` reports only the corrupt line — the second
record's link is checked against the unchanged genesis digest, not
against `"X"` as the spec prescribes. -/
theorem C4_counterexample :
    Zelensky.zVerifyAux (fun s => s) 1 (Zelensky.zGenesis (fun s => s)) Zelensky.c4demo
        = [Zelensky.ZErr.corruptRecord 1]
      ∧ Zelensky.zSpecVerifyAux (fun s => s) 1 (Zelensky.zGenesis (fun s => s)) Zelensky.c4demo
          = [Zelensky.ZErr.corruptRecord 1, Zelensky.ZErr.chainBreak 2]
      ∧ Zelensky.zVerifyAux (fun s => s) 1 (Zelensky.zGenesis (fun s => s)) Zelensky.c4demo
          ≠ Zelensky.zSpecVerifyAux (fun s => s) 1 (Zelensky.zGenesis (fun s => s))
              Zelensky.c4demo := by
  refine ⟨rfl, rfl, ?_⟩
  decide

/-- C4 (amended): in both `evidence_logger.py` and `zelensky.py`, a line
with malformed encoding records exactly one `CorruptRecord` error and the
scan continues on the next line with the expected-previous hash left
unchanged (the broken line has no readable stored hash; it is skipped for
chaining purposes). -/
theorem C4_corrupt_line_handling :
    (∀ (H : String → String) (i : Nat) (prev h : String) (rest : List Logger.ELine),
        Logger.eVerifyAux H i prev (Logger.ELine.corrupt h :: rest)
          = Logger.EVErr.invalidJSON i :: Logger.eVerifyAux H (i + 1) prev rest)
    ∧ (∀ (H : String → String) (i : Nat) (prev h : String) (rest : List Zelensky.ZLine),
        Zelensky.zVerifyAux H i prev (Zelensky.ZLine.corrupt h :: rest)
          = Zelensky.ZErr.corruptRecord i :: Zelensky.zVerifyAux H (i + 1) prev rest) :=
  ⟨fun _ _ _ _ _ => rfl, fun _ _ _ _ _ => rfl⟩

/-- C5 (counterexample): the stored hash is not the SHA-256 of the spec's
canonical no-whitespace encoding concatenated with `prev_hash`.  Under
the identity hash model, the appended entry's stored hash is the
`json.dumps(..., sort_keys=True)` string — with a space after every `:`
and `,`, and (in `precision.py`) with `prev_hash` as a key of the encoded
mapping and nothing concatenated — which differs from the spec's
prescribed input on a concrete entry, for both implementations. -/
theorem C5_counterexample :
    Precision.pAppend (fun s => s) "t" "c" "d" [] []
        = some [Precision.PLine.entry ⟨"t", "c", "d", [], some "GENESIS",
            some (Precision.pContent "t" "c" "d" [] "GENESIS")⟩]
      ∧ Precision.pContent "t" "c" "d" [] "GENESIS"
          ≠ specHashInput "t" "c" "d" [] "GENESIS"
      ∧ (Logger.log_entry (fun s => s) ⟨"t", "c", "d", [], []⟩
            ⟨Logger.eGenesis (fun s => s), []⟩).1.entry_hash
          = some (Logger.eContent ⟨"t", "c", "d", [], []⟩ ++ "GENESIS")
      ∧ Logger.eContent ⟨"t", "c", "d", [], []⟩ ++ "GENESIS"
          ≠ specHashInputLogger ⟨"t", "c", "d", [], []⟩ "GENESIS" := by
  refine ⟨rfl, by decide, rfl, by decide⟩

/-- C5 (amended): the stored hash is the SHA-256 of a sorted-keys
`json.dumps` encoding that keeps Python's default separators (a space
after each `:` and `,`): `EvidenceChain.append` hashes the dump of the
entry with `prev_hash` as one of its keys and nothing concatenated, while
`EvidenceLogger._compute_hash` hashes the dump of the entry minus `hash`
and `prev_hash`, concatenated with the `prev_hash` hex string.  The keys
are sorted lexicographically, and concrete entries pin the exact byte
format. -/
theorem C5_serialization :
    (∀ (H : String → String) (ts cat desc : String) (data : List (String × String))
        (lines : List Precision.PLine),
        Precision.pAppend H ts cat desc data lines
          = (Precision.pLastHash H lines).map (fun prev =>
              lines ++ [Precision.PLine.entry ⟨ts, cat, desc, data, some prev,
                some (H (Precision.pContent ts cat desc data prev))⟩]))
    ∧ (∀ a b c d e : JVal,
        sortByKey [("timestamp", a), ("category", b), ("description", c),
                   ("data", d), ("prev_hash", e)]
          = [("category", b), ("data", d), ("description", c),
             ("prev_hash", e), ("timestamp", a)])
    ∧ (∀ (H : String → String) (d : Logger.EntryData) (s : Logger.LoggerState),
        (Logger.log_entry H d s).1.entry_hash = some (H (Logger.eContent d ++ s.last_hash))
          ∧ (Logger.log_entry H d s).1.prev_hash = some s.last_hash)
    ∧ Precision.pContent "t" "c" "d" [] "p"
        = "\x7b\"category\": \"c\", \"data\": \x7b\x7d, \"description\": \"d\", \"prev_hash\": \"p\", \"timestamp\": \"t\"\x7d"
    ∧ Logger.eContent ⟨"t", "c", "d", [], []⟩
        = "\x7b\"category\": \"c\", \"data\": \x7b\x7d, \"description\": \"d\", \"platform\": \x7b\x7d, \"timestamp\": \"t\"\x7d" := by
  refine ⟨?_, fun a b c d e => rfl, fun H d s => ⟨rfl, rfl⟩, by decide, by decide⟩
  intro H ts cat desc data lines
  cases h : Precision.pLastHash H lines <;> simp [Precision.pAppend, h]

/-- C6 (counterexample): `count()` does count a non-blank line that fails
to parse: on a one-corrupt-line file the code's count is 1 while the
spec's count (records with a `hash` field only) is 0. -/
theorem C6_counterexample :
    Precision.pCount [Precision.PLine.corrupt "not json"] = 1
      ∧ Precision.pClaimCount [Precision.PLine.corrupt "not json"] = 0
      ∧ Precision.pCount [Precision.PLine.corrupt "not json"]
          ≠ Precision.pClaimCount [Precision.PLine.corrupt "not json"] := by
  refine ⟨rfl, rfl, ?_⟩
  decide

/-- C6 (amended): `count()` returns the number of non-blank lines,
parseable or not, in both `precision.py` and `zelensky.py`; on an absent
or empty chain file (zero appends) it returns 0. -/
theorem C6_count_nonblank :
    (∀ lines : List Precision.PLine,
        Precision.pCount lines
          = (lines.filter (fun l => !Precision.pIsBlank l)).length)
    ∧ (∀ lines : List Zelensky.ZLine,
        Zelensky.zCount lines
          = (lines.filter (fun l => !Zelensky.zIsBlank l)).length)
    ∧ Precision.pCount [] = 0 ∧ Zelensky.zCount [] = 0 := by
  refine ⟨fun lines => ?_, fun lines => ?_, rfl, rfl⟩
  · unfold Precision.pCount
    exact lines.countP_eq_length_filter _
  · unfold Zelensky.zCount
    exact lines.countP_eq_length_filter _

/-- C7 (counterexample): `IncidentTracker.analyze` uses no 1.2
multiplier.  For severities 3,3,3,4 the code reports `escalating = true`
(strict mean increase, 10/3 > 3), while the claimed rule — recent-window
mean exceeds 1.2 × earliest-window mean — is false for every window
length 3, 4 or 5 (the exact rational comparisons are all false). -/
theorem C7_counterexample :
    ((PrecisionIncidents.analyze
          [PrecisionIncidents.mkInc "HARASSMENT" 3, PrecisionIncidents.mkInc "HARASSMENT" 3,
           PrecisionIncidents.mkInc "HARASSMENT" 3,
           PrecisionIncidents.mkInc "HARASSMENT" 4]).map
        (fun a => a.escalating) = some true)
      ∧ meanExceeds [3, 3, 4] [3, 3, 3] 6 5 = false
      ∧ meanExceeds [3, 3, 3, 4] [3, 3, 3, 4] 6 5 = false := by
  refine ⟨?_, ?_, ?_⟩ <;> decide

/-- C7 (amended): with fewer than 3 incidents (but at least one) the
escalation flag is false in both analyzers; an empty collection yields
the error report instead.  With at least 3 incidents,
`analyze_temporal_patterns` sets the flag exactly when the mean severity
of `incidents[-5:]` exceeds 6/5 of the mean of `incidents[:5]`, while
`IncidentTracker.analyze` compares the means of the last 3 and first 3
with no multiplier.  On the spec's worked example (severities
3,3,3,9,9,9) both flags are true. -/
theorem C7_escalation_rules :
    (∀ (parseTs : String → Option (Nat × String)) (incs : List Moral.AttackIncident),
        incs ≠ [] → incs.length < 3 →
        (Moral.analyze_temporal_patterns parseTs incs).map
            (fun t => t.escalation_detected) = some false)
    ∧ (∀ (parseTs : String → Option (Nat × String)) (incs : List Moral.AttackIncident),
        3 ≤ incs.length →
        (Moral.analyze_temporal_patterns parseTs incs).map
            (fun t => t.escalation_detected)
          = some (meanExceeds
              ((incs.map (fun i => i.severity)).drop (incs.length - 5))
              ((incs.map (fun i => i.severity)).take 5) 6 5))
    ∧ (∀ incs : List PrecisionIncidents.Incident, incs ≠ [] → incs.length < 3 →
        (PrecisionIncidents.analyze incs).map (fun a => a.escalating) = some false)
    ∧ (∀ incs : List PrecisionIncidents.Incident, 3 ≤ incs.length →
        (PrecisionIncidents.analyze incs).map (fun a => a.escalating)
          = some (meanExceeds
              ((incs.map (fun i => i.severity)).drop (incs.length - 3))
              ((incs.map (fun i => i.severity)).take 3) 1 1))
    ∧ ((Moral.analyze_temporal_patterns (fun _ => none) Moral.sixDemo).map
        (fun t => t.escalation_detected) = some true)
    ∧ ((PrecisionIncidents.analyze PrecisionIncidents.sixDemo).map
        (fun a => a.escalating) = some true) := by
  refine ⟨?_, ?_, ?_, ?_, by decide, by decide⟩
  · intro parseTs incs hne h3
    have he : incs.isEmpty = false := by
      cases incs with
      | nil => exact absurd rfl hne
      | cons a t => rfl
    have hlt : ¬ incs.length ≥ 3 := by omega
    simp [Moral.analyze_temporal_patterns, he, hlt]
  · intro parseTs incs h3
    have he : incs.isEmpty = false := by
      cases incs with
      | nil => simp at h3
      | cons a t => rfl
    simp [Moral.analyze_temporal_patterns, he, h3, List.length_map]
  · intro incs hne h3
    have he : incs.isEmpty = false := by
      cases incs with
      | nil => exact absurd rfl hne
      | cons a t => rfl
    have hlt : ¬ incs.length ≥ 3 := by omega
    simp [PrecisionIncidents.analyze, he, hlt]
  · intro incs h3
    have he : incs.isEmpty = false := by
      cases incs with
      | nil => simp at h3
      | cons a t => rfl
    simp [PrecisionIncidents.analyze, he, h3, List.length_map]

/-- C7 (witness): the amended window rules instantiated on concrete
collections — the 6-incident worked example for the 5-window 6/5 rule,
and a 2-incident collection for the fewer-than-3 rule. -/
theorem C7_escalation_rules_witness :
    ((Moral.analyze_temporal_patterns (fun _ => none) Moral.sixDemo).map
        (fun t => t.escalation_detected)
      = some (meanExceeds
          ((Moral.sixDemo.map (fun i => i.severity)).drop (Moral.sixDemo.length - 5))
          ((Moral.sixDemo.map (fun i => i.severity)).take 5) 6 5))
    ∧ ((PrecisionIncidents.analyze (PrecisionIncidents.lowDemo 2)).map
        (fun a => a.escalating) = some false) :=
  ⟨C7_escalation_rules.2.1 (fun _ => none) Moral.sixDemo (by decide),
   C7_escalation_rules.2.2.1 (PrecisionIncidents.lowDemo 2) (by decide) (by decide)⟩

/-- C8: `assess_escalation` returns the highest level whose threshold is
met, each threshold evaluated independently: level 1 for the empty
collection, ≥ 2 for 3 incidents, ≥ 3 for 5, ≥ 4 whenever any incident has
severity ≥ 8 regardless of count, ≥ 5 for 10. -/
theorem C8_escalation_level :
    (∀ incs : List PrecisionIncidents.Incident,
        (PrecisionIncidents.assess_escalation incs).current_level
          = PrecisionIncidents.specHighestLevel incs)
    ∧ (PrecisionIncidents.assess_escalation []).current_level = 1
    ∧ (∀ incs : List PrecisionIncidents.Incident, 3 ≤ incs.length →
        2 ≤ (PrecisionIncidents.assess_escalation incs).current_level)
    ∧ (∀ incs : List PrecisionIncidents.Incident, 5 ≤ incs.length →
        3 ≤ (PrecisionIncidents.assess_escalation incs).current_level)
    ∧ (∀ (incs : List PrecisionIncidents.Incident) (i : PrecisionIncidents.Incident),
        i ∈ incs → (8 : Int) ≤ i.severity →
        4 ≤ (PrecisionIncidents.assess_escalation incs).current_level)
    ∧ (∀ incs : List PrecisionIncidents.Incident, 10 ≤ incs.length →
        5 ≤ (PrecisionIncidents.assess_escalation incs).current_level) := by
  refine ⟨PrecisionIncidents.assess_level_eq, rfl, ?_, ?_, ?_, ?_⟩
  · intro incs h3
    rw [PrecisionIncidents.assess_level_eq]
    simp only [PrecisionIncidents.specHighestLevel]
    split_ifs <;> omega
  · intro incs h5
    rw [PrecisionIncidents.assess_level_eq]
    simp only [PrecisionIncidents.specHighestLevel]
    split_ifs <;> omega
  · intro incs i hmem hsev
    have hany : incs.any (fun i => i.severity ≥ 8) = true :=
      List.any_eq_true.mpr ⟨i, hmem, by simpa using hsev⟩
    rw [PrecisionIncidents.assess_level_eq]
    simp only [PrecisionIncidents.specHighestLevel, hany]
    split_ifs <;> omega
  · intro incs h10
    rw [PrecisionIncidents.assess_level_eq]
    simp only [PrecisionIncidents.specHighestLevel]
    split_ifs <;> omega

/-- C8 (witness): the threshold rules instantiated on concrete
collections of 3, 5 and 10 low-severity incidents and a singleton
severity-9 incident. -/
theorem C8_escalation_level_witness :
    2 ≤ (PrecisionIncidents.assess_escalation (PrecisionIncidents.lowDemo 3)).current_level
    ∧ 3 ≤ (PrecisionIncidents.assess_escalation (PrecisionIncidents.lowDemo 5)).current_level
    ∧ 4 ≤ (PrecisionIncidents.assess_escalation
        [PrecisionIncidents.mkInc "LEGAL_ABUSE" 9]).current_level
    ∧ 5 ≤ (PrecisionIncidents.assess_escalation (PrecisionIncidents.lowDemo 10)).current_level :=
  ⟨C8_escalation_level.2.2.1 (PrecisionIncidents.lowDemo 3) (by decide),
   C8_escalation_level.2.2.2.1 (PrecisionIncidents.lowDemo 5) (by decide),
   C8_escalation_level.2.2.2.2.1 [PrecisionIncidents.mkInc "LEGAL_ABUSE" 9]
     (PrecisionIncidents.mkInc "LEGAL_ABUSE" 9) (by decide) (by decide),
   C8_escalation_level.2.2.2.2.2 (PrecisionIncidents.lowDemo 10) (by decide)⟩

/-- C9 (counterexample): `generate_pattern_report` is not a pure function
of the incident collection — its `generated_at` field is the wall-clock
time of the call, so two invocations on the same (empty) collection at
different times produce different reports. -/
theorem C9_counterexample :
    Moral.generate_pattern_report (fun _ => none) "2025-03-01T00:00:00+00:00" []
      ≠ Moral.generate_pattern_report (fun _ => none) "2025-03-02T00:00:00+00:00" [] := by
  decide

/-- C9 (amended): everything in the report except `generated_at` is a
pure function of the incident collection (and of the fixed timestamp
parser): invocations at different times agree on every other field, and
`generated_at` is exactly the call time. -/
theorem C9_report_pure :
    ∀ (parseTs : String → Option (Nat × String)) (t₁ t₂ : String)
      (incs : List Moral.AttackIncident),
      Moral.reportBody (Moral.generate_pattern_report parseTs t₁ incs)
          = Moral.reportBody (Moral.generate_pattern_report parseTs t₂ incs)
        ∧ (Moral.generate_pattern_report parseTs t₁ incs).generated_at = t₁ :=
  fun _ _ _ _ => ⟨rfl, rfl⟩

/-- C10: `load_incidents` appends the snapshot content to the in-memory
collections instead of replacing them, so loading the same file twice
leaves every incident twice in both the orchestrator's list and the
pattern analyzer's list, doubling lengths and per-incident counts. -/
theorem C10_load_twice_duplicates :
    ∀ (d : List Moral.AttackIncident) (s : Moral.OrchState),
      Moral.load_incidents d (Moral.load_incidents d s)
          = ⟨s.incidents ++ d ++ d, s.analyzerIncidents ++ d ++ d⟩
        ∧ (Moral.load_incidents d (Moral.load_incidents d
              (Moral.OrchState.mk [] []))).incidents.length = 2 * d.length
        ∧ (Moral.load_incidents d (Moral.load_incidents d
              (Moral.OrchState.mk [] []))).analyzerIncidents.length = 2 * d.length
        ∧ ∀ x : Moral.AttackIncident,
            (Moral.load_incidents d (Moral.load_incidents d
                (Moral.OrchState.mk [] []))).incidents.count x = 2 * d.count x := by
  intro d s
  refine ⟨?_, ?_, ?_, ?_⟩
  · rw [Moral.load_incidents_eq, Moral.load_incidents_eq]
  · rw [Moral.load_incidents_eq, Moral.load_incidents_eq]
    simp [Nat.two_mul]
  · rw [Moral.load_incidents_eq, Moral.load_incidents_eq]
    simp [Nat.two_mul]
  · intro x
    rw [Moral.load_incidents_eq, Moral.load_incidents_eq]
    simp [List.count_append, Nat.two_mul]

end SelfDefense
